import Mathlib

/-!
Verification development for the electron2pdf repository.

The definitions below are shallow embeddings of the functions in
`src/bin/electron2pdf.js` (the embedded application after the launcher
stub).  JavaScript strings are modelled as Lean `String` / `List Char`,
JavaScript numbers as `ℚ` (the numeric values appearing in the claims are
exactly representable and all arithmetic used is exact division, where
IEEE doubles and rationals agree on the claimed equalities), PDF byte
buffers as lists of abstract pages, and the external renderer / `Number()`
/ `path.resolve` primitives as explicit oracle parameters.
-/

/-! ## Basic JavaScript string helpers -/

/-- The single-quote character (written via its code point to keep the
source free of ambiguous quoting). -/
def squote : Char := Char.ofNat 39

/-- Whitespace as used by JavaScript `String.prototype.trim` and the
`\s` character class, restricted to the ASCII range (the only characters
relevant to the claims). -/
def isJsSpace (c : Char) : Bool :=
  c = ' ' || c = '\t' || c = '\n' || c = '\r' || c = Char.ofNat 11 || c = Char.ofNat 12

/-- Model of `String.prototype.trim`: drop whitespace from both ends. -/
def jsTrim (s : String) : String :=
  ⟨((s.data.dropWhile isJsSpace).reverse.dropWhile isJsSpace).reverse⟩

/-- Numeric value of a list of ASCII digits (most significant first). -/
def digitsToNat (ds : List Char) : Nat :=
  ds.foldl (fun a c => 10 * a + (c.toNat - 48)) 0

/-! ## unitRealToInches (src/bin/electron2pdf.js lines 179-192)

The source matches the trimmed input against
`/^(-?\d+(?:\.\d+)?)(px|mm|cm|in)?$/i` and converts the captured number
to inches.  The regex is embedded as a greedy recursive-descent parser:
optional minus sign, a non-empty digit run, an optional fraction
(`'.'` followed by a non-empty digit run), and an optional
case-insensitive unit suffix, anchored at both ends. -/

/-- Split a leading `'-'` sign off a character list. -/
def splitSign (cs : List Char) : Bool × List Char :=
  match cs with
  | c :: rest => if c = '-' then (true, rest) else (false, cs)
  | [] => (false, [])

/-- Match the `(px|mm|cm|in)?` suffix (case-insensitive, anchored at the
end); returns the lowercased unit, defaulting to `mm` as the source does
with `(m[2] || 'mm').toLowerCase()`. -/
def readUnit (r : List Char) : Option (List Char) :=
  match r.map Char.toLower with
  | [] => some ['m', 'm']
  | ['p', 'x'] => some ['p', 'x']
  | ['m', 'm'] => some ['m', 'm']
  | ['c', 'm'] => some ['c', 'm']
  | ['i', 'n'] => some ['i', 'n']
  | _ => none

/-- Match the optional `(?:\.\d+)?` fraction group: a leading `'.'` must
be followed by at least one digit, otherwise the whole match fails (the
dot can be consumed by nothing else); without a leading dot the fraction
is empty and the remainder is left for the unit suffix. -/
def readFrac : List Char → Option (List Char × List Char)
  | '.' :: rest =>
    let fs := rest.takeWhile Char.isDigit
    if fs = [] then none else some (fs, rest.dropWhile Char.isDigit)
  | r1 => some ([], r1)

/-- The unit conversion arithmetic of lines 186-191: build the captured
number from its digit runs and divide according to the (lowercased,
defaulted) unit. -/
def unitValue (neg : Bool) (ds fs u : List Char) : Option ℚ :=
  let mag : ℚ := (digitsToNat ds : ℚ) + (digitsToNat fs : ℚ) / ((10 : ℚ) ^ fs.length)
  let n : ℚ := if neg then -mag else mag
  if u = ['i', 'n'] then some n
  else if u = ['c', 'm'] then some (n / (254 / 100 : ℚ))
  else if u = ['m', 'm'] then some (n / (254 / 10 : ℚ))
  else some (n / 96)

/-- Parser for the body of `unitRealToInches` on the trimmed character
list: sign, non-empty integer digit run, optional fraction, optional
unit, then the conversion arithmetic. -/
def parseUnitRealChars (cs : List Char) : Option ℚ :=
  if (splitSign cs).2.takeWhile Char.isDigit = [] then none
  else
    match readFrac ((splitSign cs).2.dropWhile Char.isDigit) with
    | none => none
    | some (fs, r2) =>
      match readUnit r2 with
      | none => none
      | some u => unitValue (splitSign cs).1 ((splitSign cs).2.takeWhile Char.isDigit) fs u

/-- `unitRealToInches` from the source: trim, match the regex, convert.
`none` models the JavaScript `null` rejection signal. -/
def unitRealToInches (value : String) : Option ℚ :=
  parseUnitRealChars (jsTrim value).data

/-- The unit suffix alternatives of the regex, up to ASCII case. -/
def unitSuffixOk (u : List Char) : Prop :=
  u.map Char.toLower = [] ∨ u.map Char.toLower = ['p', 'x'] ∨
  u.map Char.toLower = ['m', 'm'] ∨ u.map Char.toLower = ['c', 'm'] ∨
  u.map Char.toLower = ['i', 'n']

/-- Spec-level statement that the trimmed input is in the language of
`/^(-?\d+(?:\.\d+)?)(px|mm|cm|in)?$/i`: an optional sign, a non-empty
digit run, an optional dot-and-digits fraction, and an optional unit. -/
def matchesUnitReal (value : String) : Prop :=
  ∃ (neg : Bool) (ds fs u : List Char),
    ds ≠ [] ∧ (∀ c ∈ ds, c.isDigit) ∧ (∀ c ∈ fs, c.isDigit) ∧ unitSuffixOk u ∧
    (jsTrim value).data =
      (if neg then ['-'] else []) ++ ds ++ (if fs = [] then [] else '.' :: fs) ++ u

/-! ## normalizeInputToUrl (src/bin/electron2pdf.js lines 194-199)

`path.resolve(process.cwd(), s)` is an external primitive; it is passed
in as an oracle `resolve : String → String`. -/

/-- Characters allowed after the first in a URI scheme: `[a-zA-Z0-9+.-]`. -/
def isSchemeChar (c : Char) : Bool :=
  c.isAlpha || c.isDigit || c = '+' || c = '.' || c = '-'

/-- Scan for the `':'` terminating a scheme after its first letter. -/
def schemeTail : List Char → Bool
  | [] => false
  | c :: cs => if c = ':' then true else if isSchemeChar c then schemeTail cs else false

/-- Test of `/^[a-zA-Z][a-zA-Z0-9+.-]*:/` against a string. -/
def hasUriScheme (s : String) : Bool :=
  match s.data with
  | [] => false
  | c :: cs => c.isAlpha && schemeTail cs

/-- `normalizeInputToUrl` from the source: a string with a URI scheme
passes through unchanged, anything else becomes a `file://` URL of the
path resolved against the current working directory (`resolve`). -/
def normalizeInputToUrl (resolve : String → String) (input : String) : String :=
  if hasUriScheme input then input else String.append "file://" (resolve input)

/-! ## Lemmas: URL normalization -/

/-- Any string of the form `file://…` starts with a URI scheme: the
scheme test succeeds on `file:` before ever reaching the appended part. -/
theorem hasUriScheme_file_append (y : String) :
    hasUriScheme (String.append "file://" y) = true := by
  have hdata : (String.append "file://" y).data = 'f' :: 'i' :: 'l' :: 'e' :: ':' :: '/' :: '/' :: y.data := rfl
  simp only [hasUriScheme, hdata]
  simp +decide [schemeTail, isSchemeChar]

/-- C10: URL normalization is idempotent and total: every input string is
mapped to itself when it starts with a URI scheme (a letter followed by
letters, digits, `+`, `.` or `-` and a colon), otherwise to a `file://`
URL of the path resolved against the current working directory, and
applying `normalizeInputToUrl` twice always equals applying it once. -/
theorem normalizeInputToUrl_total_idem (resolve : String → String) (input : String) :
    normalizeInputToUrl resolve (normalizeInputToUrl resolve input) =
      normalizeInputToUrl resolve input ∧
    (hasUriScheme input = true → normalizeInputToUrl resolve input = input) ∧
    (hasUriScheme input = false →
      normalizeInputToUrl resolve input = String.append "file://" (resolve input)) := by
  refine ⟨?_, ?_, ?_⟩
  · by_cases h : hasUriScheme input = true
    · simp [normalizeInputToUrl, h]
    · simp [normalizeInputToUrl, h, hasUriScheme_file_append]
  · intro h; simp [normalizeInputToUrl, h]
  · intro h; simp [normalizeInputToUrl, h]

/-- Witness for C10 at concrete inputs: `page.html` has no URI scheme and
is turned into a `file://` URL by a concrete resolver. -/
theorem normalizeInputToUrl_total_idem_witness :
    hasUriScheme "page.html" = false ∧
    normalizeInputToUrl (fun s => String.append "/cwd/" s) "page.html" =
      String.append "file://" ((fun s => String.append "/cwd/" s) "page.html") :=
  ⟨by decide, (normalizeInputToUrl_total_idem (fun s => String.append "/cwd/" s)
      "page.html").2.2 (by decide)⟩

/-! ## Lemmas: unit conversion -/

theorem splitSign_eq (cs : List Char) :
    cs = (if (splitSign cs).1 then ['-'] else []) ++ (splitSign cs).2 := by
  match cs with
  | [] => simp [splitSign]
  | c :: rest =>
    by_cases h : c = '-'
    · subst h; simp [splitSign]
    · simp [splitSign, h]

theorem readUnit_sound (r u : List Char) (h : readUnit r = some u) : unitSuffixOk r := by
  unfold readUnit at h
  unfold unitSuffixOk
  split at h
  · left; assumption
  · right; left; assumption
  · right; right; left; assumption
  · right; right; right; left; assumption
  · right; right; right; right; assumption
  · exact absurd h (by simp)

theorem readFrac_sound (r1 fs r2 : List Char) (h : readFrac r1 = some (fs, r2)) :
    (∀ c ∈ fs, c.isDigit) ∧ r1 = (if fs = [] then [] else '.' :: fs) ++ r2 := by
  unfold readFrac at h
  split at h
  case _ rest =>
    simp only at h
    by_cases hfs : rest.takeWhile Char.isDigit = []
    · rw [if_pos hfs] at h; exact absurd h (by simp)
    · rw [if_neg hfs] at h
      have hp : rest.takeWhile Char.isDigit = fs ∧ rest.dropWhile Char.isDigit = r2 := by
        simpa using h
      obtain ⟨h1, h2⟩ := hp
      constructor
      · intro c hc
        rw [← h1] at hc
        exact List.mem_takeWhile_imp hc
      · rw [if_neg (h1 ▸ hfs), ← h1, ← h2]
        simp [List.takeWhile_append_dropWhile]
  case _ =>
    have hp : ([] : List Char) = fs ∧ r1 = r2 := by simpa using h
    obtain ⟨h1, h2⟩ := hp
    subst h2
    constructor
    · intro c hc; rw [← h1] at hc; simp at hc
    · rw [if_pos h1.symm]; simp

theorem parseUnitReal_sound (cs : List Char) (q : ℚ)
    (h : parseUnitRealChars cs = some q) :
    ∃ (neg : Bool) (ds fs u : List Char),
      ds ≠ [] ∧ (∀ c ∈ ds, c.isDigit) ∧ (∀ c ∈ fs, c.isDigit) ∧ unitSuffixOk u ∧
      cs = (if neg then ['-'] else []) ++ ds ++ (if fs = [] then [] else '.' :: fs) ++ u := by
  unfold parseUnitRealChars at h
  by_cases hds : (splitSign cs).2.takeWhile Char.isDigit = []
  · rw [if_pos hds] at h; exact absurd h (by simp)
  · rw [if_neg hds] at h
    cases hf : readFrac ((splitSign cs).2.dropWhile Char.isDigit) with
    | none => rw [hf] at h; simp at h
    | some pr =>
      obtain ⟨fs, r2⟩ := pr
      rw [hf] at h
      replace h : (match readUnit r2 with
        | none => (none : Option ℚ)
        | some u => unitValue (splitSign cs).1 ((splitSign cs).2.takeWhile Char.isDigit) fs u) =
          some q := h
      cases hu : readUnit r2 with
      | none => rw [hu] at h; simp at h
      | some u =>
        obtain ⟨hfsd, hfrac⟩ := readFrac_sound _ _ _ hf
        have hsplit2 : (splitSign cs).2 =
            (splitSign cs).2.takeWhile Char.isDigit ++
              ((if fs = [] then [] else '.' :: fs) ++ r2) := by
          conv_lhs => rw [← List.takeWhile_append_dropWhile Char.isDigit (splitSign cs).2]
          rw [hfrac]
        refine ⟨(splitSign cs).1, (splitSign cs).2.takeWhile Char.isDigit, fs, r2,
          hds, ?_, hfsd, readUnit_sound _ _ hu, ?_⟩
        · intro c hc; exact List.mem_takeWhile_imp hc
        · conv_lhs => rw [splitSign_eq cs]
          conv_lhs => rw [hsplit2]
          simp [List.append_assoc]

/-- The string `abc` is not in the language of the unit-real regex. -/
theorem notMatch_abc : ¬ matchesUnitReal "abc" := by
  rintro ⟨neg, ds, fs, u, hds, hdig, -, -, heq⟩
  have habc : (jsTrim "abc").data = ['a', 'b', 'c'] := by decide
  rw [habc] at heq
  rcases ds with - | ⟨d, ds2⟩
  · exact hds rfl
  · cases neg with
    | true => simp at heq
    | false =>
      have hd := hdig d (List.mem_cons_self d ds2)
      have hhead : d = 'a' := by
        have hh := congrArg (fun l => l.head?) heq
        simpa using hh.symm
      rw [hhead] at hd
      exact absurd hd (by decide)

/-- C7: unit conversion returns exactly `1` for `25.4mm`, `2.54cm`,
`96px` and `1in`, and returns the rejection signal (`none`, modelling
JavaScript `null`) for every string whose trimmed form is not a number
optionally followed by `px`/`mm`/`cm`/`in`, such as `abc` and `10 foo`. -/
theorem unitRealToInches_spec :
    unitRealToInches "25.4mm" = some 1 ∧
    unitRealToInches "2.54cm" = some 1 ∧
    unitRealToInches "96px" = some 1 ∧
    unitRealToInches "1in" = some 1 ∧
    unitRealToInches "abc" = none ∧
    unitRealToInches "10 foo" = none ∧
    ∀ value : String, ¬ matchesUnitReal value → unitRealToInches value = none := by
  refine ⟨?_, ?_, ?_, ?_, ?_, ?_, ?_⟩
  · simp +decide [unitRealToInches, parseUnitRealChars, jsTrim, splitSign, readFrac,
      readUnit, unitValue, digitsToNat, isJsSpace]
    norm_num
  · simp +decide [unitRealToInches, parseUnitRealChars, jsTrim, splitSign, readFrac,
      readUnit, unitValue, digitsToNat, isJsSpace]
    norm_num
  · simp +decide [unitRealToInches, parseUnitRealChars, jsTrim, splitSign, readFrac,
      readUnit, unitValue, digitsToNat, isJsSpace]
  · simp +decide [unitRealToInches, parseUnitRealChars, jsTrim, splitSign, readFrac,
      readUnit, unitValue, digitsToNat, isJsSpace]
  · simp +decide [unitRealToInches, parseUnitRealChars, jsTrim, splitSign, readFrac,
      readUnit, unitValue, digitsToNat, isJsSpace]
  · simp +decide [unitRealToInches, parseUnitRealChars, jsTrim, splitSign, readFrac,
      readUnit, unitValue, digitsToNat, isJsSpace]
  · intro v hm
    cases hv : unitRealToInches v with
    | none => rfl
    | some q => exact absurd (parseUnitReal_sound (jsTrim v).data q hv) hm

/-- Witness for C7 at the concrete rejected input `abc`. -/
theorem unitRealToInches_spec_witness : unitRealToInches "abc" = none :=
  unitRealToInches_spec.2.2.2.2.2.2 "abc" notMatch_abc

/-! ## XML attribute escaping (src/bin/electron2pdf.js lines 939-959) -/

/-- Global single-character replacement, the behaviour of JavaScript
`String.prototype.replace` with a one-character global regex. -/
def replaceChar (c : Char) (rep : List Char) : List Char → List Char
  | [] => []
  | x :: xs => (if x = c then rep else [x]) ++ replaceChar c rep xs

/-- Entity text for `&`. -/
def ampEnt : List Char := ['&', 'a', 'm', 'p', ';']

/-- Entity text for `<`. -/
def ltEnt : List Char := ['&', 'l', 't', ';']

/-- Entity text for `>`. -/
def gtEnt : List Char := ['&', 'g', 't', ';']

/-- Entity text for `"`. -/
def quotEnt : List Char := ['&', 'q', 'u', 'o', 't', ';']

/-- Entity text for the apostrophe. -/
def aposEnt : List Char := ['&', 'a', 'p', 'o', 's', ';']

/-- `escapeXmlAttr` from the source: five sequential global replacements,
ampersand first. -/
def escapeXmlAttr (s : String) : String :=
  ⟨replaceChar squote aposEnt
    (replaceChar '"' quotEnt
      (replaceChar '>' gtEnt
        (replaceChar '<' ltEnt
          (replaceChar '&' ampEnt s.data))))⟩

/-- `buildOutlineXml` from the source: the flat outline vocabulary with
one `outline:item` element per entry, all attribute values escaped. -/
structure OutlineItem where
  title : String
  link : String
  page : Nat
deriving DecidableEq, Repr

def buildOutlineXml (items : List OutlineItem) : String :=
  let itemLines := items.map (fun it =>
    String.append "<outline:item title=\""
      (String.append (escapeXmlAttr it.title)
        (String.append "\" page=\""
          (String.append (escapeXmlAttr (toString it.page))
            (String.append "\" link=\""
              (String.append (escapeXmlAttr it.link) "\"/>"))))))
  let header := ["<?xml version=\"1.0\" encoding=\"UTF-8\"?>",
    "<outline:outline xmlns:outline=\"http://wkhtmltopdf.org/outline\">",
    "<outline:item>"]
  let footer := ["</outline:item>", "</outline:outline>"]
  String.intercalate "\n" (header ++ itemLines ++ footer)

/-- Recognize one of the five predefined XML entities after a leading
ampersand, returning the decoded character and the remainder. -/
def decodeEntity (rest : List Char) : Option (Char × List Char) :=
  match rest with
  | 'a' :: 'm' :: 'p' :: ';' :: r2 => some ('&', r2)
  | 'l' :: 't' :: ';' :: r2 => some ('<', r2)
  | 'g' :: 't' :: ';' :: r2 => some ('>', r2)
  | 'q' :: 'u' :: 'o' :: 't' :: ';' :: r2 => some ('"', r2)
  | 'a' :: 'p' :: 'o' :: 's' :: ';' :: r2 => some (squote, r2)
  | _ => none

theorem decodeEntity_length (rest : List Char) (d : Char) (r2 : List Char)
    (h : decodeEntity rest = some (d, r2)) : r2.length < rest.length := by
  unfold decodeEntity at h
  split at h <;> simp_all <;> omega

/-- XML entity decoding of an attribute value: the five predefined
entities decode to their characters, everything else copies through. -/
def decodeXmlEntities : List Char → List Char
  | [] => []
  | c :: rest =>
    if c = '&' then
      match h : decodeEntity rest with
      | some dr => dr.1 :: decodeXmlEntities dr.2
      | none => c :: decodeXmlEntities rest
    else c :: decodeXmlEntities rest
termination_by l => l.length
decreasing_by
  · have hlen := decodeEntity_length cs dr.1 dr.2 (by rw [h])
    simp
    omega
  · simp
  · simp

/-- Parse an escaped attribute value back to the original string. -/
def decodeXmlAttr (s : String) : String :=
  ⟨decodeXmlEntities s.data⟩

/-! ## Lemmas: escaping round-trip -/

/-- Per-character form of the five sequential replacements. -/
def escChar (c : Char) : List Char :=
  if c = '&' then ampEnt
  else if c = '<' then ltEnt
  else if c = '>' then gtEnt
  else if c = '"' then quotEnt
  else if c = squote then aposEnt
  else [c]

theorem replaceChar_append (c : Char) (rep : List Char) (xs ys : List Char) :
    replaceChar c rep (xs ++ ys) = replaceChar c rep xs ++ replaceChar c rep ys := by
  induction xs with
  | nil => simp [replaceChar]
  | cons x xs ih => simp [replaceChar, ih, List.append_assoc]

/-- The composed replacement acts characterwise. -/
theorem escape_data_eq (l : List Char) :
    replaceChar squote aposEnt
      (replaceChar '"' quotEnt
        (replaceChar '>' gtEnt
          (replaceChar '<' ltEnt
            (replaceChar '&' ampEnt l)))) = (l.map escChar).flatten := by
  induction l with
  | nil => simp [replaceChar]
  | cons x xs ih =>
    have hx : replaceChar '&' ampEnt (x :: xs) =
        replaceChar '&' ampEnt [x] ++ replaceChar '&' ampEnt xs := by
      simp [replaceChar]
    rw [hx, replaceChar_append, replaceChar_append, replaceChar_append, replaceChar_append,
      List.map_cons, List.flatten_cons, ih]
    congr 1
    by_cases h1 : x = '&'
    · subst h1; simp [replaceChar, escChar, ampEnt, ltEnt, gtEnt, quotEnt, aposEnt, squote]
    · by_cases h2 : x = '<'
      · subst h2; simp [replaceChar, escChar, ampEnt, ltEnt, gtEnt, quotEnt, aposEnt, squote]
      · by_cases h3 : x = '>'
        · subst h3; simp [replaceChar, escChar, ampEnt, ltEnt, gtEnt, quotEnt, aposEnt, squote]
        · by_cases h4 : x = '"'
          · subst h4; simp [replaceChar, escChar, ampEnt, ltEnt, gtEnt, quotEnt, aposEnt, squote]
          · by_cases h5 : x = squote
            · subst h5; simp [replaceChar, escChar, ampEnt, ltEnt, gtEnt, quotEnt, aposEnt, squote]
            · simp [replaceChar, escChar, h1, h2, h3, h4, h5]

theorem decode_cons_other (c : Char) (rest : List Char) (hc : c ≠ '&') :
    decodeXmlEntities (c :: rest) = c :: decodeXmlEntities rest := by
  simp [decodeXmlEntities, hc]

theorem decode_amp (r : List Char) :
    decodeXmlEntities ('&' :: 'a' :: 'm' :: 'p' :: ';' :: r) = '&' :: decodeXmlEntities r := by
  simp [decodeXmlEntities, decodeEntity]

theorem decode_lt (r : List Char) :
    decodeXmlEntities ('&' :: 'l' :: 't' :: ';' :: r) = '<' :: decodeXmlEntities r := by
  simp [decodeXmlEntities, decodeEntity]

theorem decode_gt (r : List Char) :
    decodeXmlEntities ('&' :: 'g' :: 't' :: ';' :: r) = '>' :: decodeXmlEntities r := by
  simp [decodeXmlEntities, decodeEntity]

theorem decode_quot (r : List Char) :
    decodeXmlEntities ('&' :: 'q' :: 'u' :: 'o' :: 't' :: ';' :: r) = '"' :: decodeXmlEntities r := by
  simp [decodeXmlEntities, decodeEntity]

theorem decode_apos (r : List Char) :
    decodeXmlEntities ('&' :: 'a' :: 'p' :: 'o' :: 's' :: ';' :: r) = squote :: decodeXmlEntities r := by
  simp [decodeXmlEntities, decodeEntity]

theorem decode_escape_list (l : List Char) :
    decodeXmlEntities ((l.map escChar).flatten) = l := by
  induction l with
  | nil => simp [decodeXmlEntities]
  | cons x xs ih =>
    rw [List.map_cons, List.flatten_cons]
    by_cases h1 : x = '&'
    · subst h1
      rw [show escChar '&' = ampEnt from by decide]
      show decodeXmlEntities ('&' :: 'a' :: 'm' :: 'p' :: ';' :: (List.map escChar xs).flatten) =
        '&' :: xs
      rw [decode_amp, ih]
    · by_cases h2 : x = '<'
      · subst h2
        rw [show escChar '<' = ltEnt from by decide]
        show decodeXmlEntities ('&' :: 'l' :: 't' :: ';' :: (List.map escChar xs).flatten) =
          '<' :: xs
        rw [decode_lt, ih]
      · by_cases h3 : x = '>'
        · subst h3
          rw [show escChar '>' = gtEnt from by decide]
          show decodeXmlEntities ('&' :: 'g' :: 't' :: ';' :: (List.map escChar xs).flatten) =
            '>' :: xs
          rw [decode_gt, ih]
        · by_cases h4 : x = '"'
          · subst h4
            rw [show escChar '"' = quotEnt from by decide]
            show decodeXmlEntities
                ('&' :: 'q' :: 'u' :: 'o' :: 't' :: ';' :: (List.map escChar xs).flatten) =
              '"' :: xs
            rw [decode_quot, ih]
          · by_cases h5 : x = squote
            · subst h5
              rw [show escChar squote = aposEnt from by decide]
              show decodeXmlEntities
                  ('&' :: 'a' :: 'p' :: 'o' :: 's' :: ';' :: (List.map escChar xs).flatten) =
                squote :: xs
              rw [decode_apos, ih]
            · rw [show escChar x = [x] from by simp [escChar, h1, h2, h3, h4, h5]]
              rw [List.singleton_append, decode_cons_other x _ h1, ih]

/-- C8: XML escaping round-trip: serializing any OutlineItem title with
the attribute escaping of `buildOutlineXml` and decoding the XML entities
back recovers the original string exactly, including titles that contain
all five reserved characters. -/
theorem escapeXmlAttr_roundtrip (title : String) :
    decodeXmlAttr (escapeXmlAttr title) = title := by
  show String.mk (decodeXmlEntities (escapeXmlAttr title).data) = title
  have hdata : (escapeXmlAttr title).data =
      replaceChar squote aposEnt
        (replaceChar '"' quotEnt
          (replaceChar '>' gtEnt
            (replaceChar '<' ltEnt
              (replaceChar '&' ampEnt title.data)))) := rfl
  rw [hdata, escape_data_eq, decode_escape_list]

/-! ## PDF document model (pdf-lib collaborator) and mergePdfBuffers
(src/bin/electron2pdf.js lines 929-937)

A PDF byte buffer is modelled as the list of its pages (an abstract page
type); `PDFDocument.load` exposes the pages, `copyPages` copies the pages
at the given indices, `addPage` appends, `save` serializes back.  This is
the interface contract stated for the DocumentAssembler collaborator:
"loads each buffer as a PDF document, copies all of its pages (in original
order) into a fresh accumulating document". -/

structure PDFDoc (α : Type) where
  pages : List α

def PDFDoc.create {α : Type} : PDFDoc α := ⟨[]⟩

def PDFDoc.load {α : Type} (buf : List α) : PDFDoc α := ⟨buf⟩

def PDFDoc.getPageIndices {α : Type} (d : PDFDoc α) : List Nat :=
  List.range d.pages.length

def PDFDoc.copyPages {α : Type} (d : PDFDoc α) (idxs : List Nat) : List α :=
  idxs.filterMap (fun i => d.pages.get? i)

def PDFDoc.addPage {α : Type} (d : PDFDoc α) (p : α) : PDFDoc α :=
  ⟨d.pages ++ [p]⟩

def PDFDoc.save {α : Type} (d : PDFDoc α) : List α := d.pages

def PDFDoc.getPageCount {α : Type} (d : PDFDoc α) : Nat := d.pages.length

/-- `mergePdfBuffers` from the source: fold every buffer into a fresh
document, copying all pages of each in order. -/
def mergePdfBuffers {α : Type} (buffers : List (List α)) : List α :=
  (buffers.foldl
    (fun merged buf =>
      let src := PDFDoc.load buf
      let pages := src.copyPages src.getPageIndices
      pages.foldl (fun m p => m.addPage p) merged)
    PDFDoc.create).save

/-- The `length === 1` shortcut of lines 1062 and 1121: a single rendered
buffer is used as the merged content unchanged, without loading or
re-encoding; several buffers are merged. -/
def selectMergedBuffer {β : Type} (merge : List β → β) : List β → β
  | [b] => b
  | bufs => merge bufs

/-- The TOC prefixing step of lines 1088 and 1147: when the TOC flag is
set the final document is the merge of the TOC buffer and the merged
content, in that order; otherwise the merged content alone. -/
def assembleFinal {α : Type} (toc : Bool) (tocBuffer mergedContent : List α) : List α :=
  if toc then mergePdfBuffers [tocBuffer, mergedContent] else mergedContent

/-! ## Lemmas: merging -/

theorem filterMap_get_range {α : Type} (l : List α) :
    (List.range l.length).filterMap (fun i => l.get? i) = l := by
  induction l with
  | nil => simp
  | cons a t ih =>
    rw [List.length_cons, List.range_succ_eq_map]
    simp only [List.filterMap_cons]
    simp only [List.get?_cons_zero]
    rw [List.filterMap_map]
    have : (fun i => (a :: t).get? i) ∘ Nat.succ = fun i => t.get? i := by
      funext i; simp
    rw [this, ih]

theorem copyPages_all {α : Type} (b : List α) :
    (PDFDoc.load b).copyPages (PDFDoc.load b).getPageIndices = b := by
  simp only [PDFDoc.load, PDFDoc.copyPages, PDFDoc.getPageIndices]
  exact filterMap_get_range b

theorem foldl_addPage {α : Type} (l : List α) (d : PDFDoc α) :
    (l.foldl (fun m p => m.addPage p) d).pages = d.pages ++ l := by
  induction l generalizing d with
  | nil => simp
  | cons p t ih =>
    rw [List.foldl_cons, ih]
    simp [PDFDoc.addPage]

theorem mergePdfBuffers_eq_flatten {α : Type} (buffers : List (List α)) :
    mergePdfBuffers buffers = buffers.flatten := by
  suffices h : ∀ (d : PDFDoc α),
      (buffers.foldl
        (fun merged buf =>
          let src := PDFDoc.load buf
          let pages := src.copyPages src.getPageIndices
          pages.foldl (fun m p => m.addPage p) merged)
        d).pages = d.pages ++ buffers.flatten by
    have := h PDFDoc.create
    simpa [mergePdfBuffers, PDFDoc.save, PDFDoc.create] using this
  induction buffers with
  | nil => intro d; simp
  | cons b bs ih =>
    intro d
    rw [List.foldl_cons, ih]
    show (((PDFDoc.load b).copyPages (PDFDoc.load b).getPageIndices).foldl
        (fun m p => m.addPage p) d).pages ++ bs.flatten = d.pages ++ (b :: bs).flatten
    rw [foldl_addPage, copyPages_all]
    simp [List.append_assoc]

theorem flatten_get_offset {α : Type} (L : List (List α)) :
    ∀ (i : Nat) (hi : i < L.length) (k : Nat), k < (L.get ⟨i, hi⟩).length →
      L.flatten.get? (((L.take i).map List.length).sum + k) = (L.get ⟨i, hi⟩).get? k := by
  induction L with
  | nil => intro i hi; simp at hi
  | cons b bs ih =>
    intro i hi k hk
    cases i with
    | zero =>
      simp only [List.take_zero, List.map_nil, List.sum_nil, Nat.zero_add, List.flatten_cons]
      have hkb : k < b.length := hk
      rw [List.get?_append hkb]
      rfl
    | succ j =>
      simp only [List.take_succ_cons, List.map_cons, List.sum_cons, List.flatten_cons]
      have hj : j < bs.length := by simpa using hi
      have hkj : k < (bs.get ⟨j, hj⟩).length := hk
      have h2 := ih j hj k hkj
      rw [Nat.add_assoc, List.get?_append_right (by omega)]
      simpa [Nat.add_sub_cancel_left] using h2

/-- C4: merging preserves count and order: for every non-empty list of
input PDF buffers the merged document has exactly the sum of the page
counts, with the pages of buffer `i` appearing contiguously, in their
original internal order, in input-list order, each copied page identical
to the corresponding source page. -/
theorem mergePdfBuffers_spec {α : Type} (buffers : List (List α)) (hne : buffers ≠ []) :
    (mergePdfBuffers buffers).length = (buffers.map List.length).sum ∧
    ∀ (i : Nat) (hi : i < buffers.length) (k : Nat), k < (buffers.get ⟨i, hi⟩).length →
      (mergePdfBuffers buffers).get? (((buffers.take i).map List.length).sum + k) =
        (buffers.get ⟨i, hi⟩).get? k := by
  constructor
  · rw [mergePdfBuffers_eq_flatten]
    exact List.length_flatten buffers
  · intro i hi k hk
    rw [mergePdfBuffers_eq_flatten]
    exact flatten_get_offset buffers i hi k hk

/-- Witness for C4 on two concrete buffers with 2 and 1 pages. -/
theorem mergePdfBuffers_spec_witness :
    (mergePdfBuffers [[10, 11], [22]] : List Nat).length = ([[10, 11], [22]].map List.length).sum ∧
    (mergePdfBuffers [[(10 : Nat), 11], [22]]).get?
        ((([[(10 : Nat), 11], [22]].take 1).map List.length).sum + 0) =
      ([[(10 : Nat), 11], [22]].get ⟨1, by decide⟩).get? 0 := by
  have h := mergePdfBuffers_spec ([[10, 11], [22]] : List (List Nat)) (by decide)
  exact ⟨h.1, h.2 1 (by decide) 0 (by decide)⟩

/-- C5: when the TOC flag is set the final document is the merge of the
TOC buffer and the merged content in that order, so pages `1..tocPageCount`
are the TOC pages in order and page `tocPageCount + 1` is the first page
of input 1's content. -/
theorem assembleFinal_toc_prefix {α : Type} (tocBuffer content : List α) (tocPageCount : Nat)
    (h : tocBuffer.length = tocPageCount) :
    assembleFinal true tocBuffer content = tocBuffer ++ content ∧
    (assembleFinal true tocBuffer content).take tocPageCount = tocBuffer ∧
    (assembleFinal true tocBuffer content).get? tocPageCount = content.get? 0 ∧
    ∀ (b1 : List α) (rest : List (List α)), content = mergePdfBuffers (b1 :: rest) → b1 ≠ [] →
      (assembleFinal true tocBuffer content).get? tocPageCount = b1.get? 0 := by
  have he : assembleFinal true tocBuffer content = tocBuffer ++ content := by
    simp [assembleFinal, mergePdfBuffers_eq_flatten]
  refine ⟨he, ?_, ?_, ?_⟩
  · rw [he, ← h, List.take_left]
  · rw [he, ← h, List.get?_append_right (le_refl _)]
    simp
  · intro b1 rest hc hb1
    rw [he, ← h, List.get?_append_right (le_refl _)]
    simp only [Nat.sub_self]
    rw [hc, mergePdfBuffers_eq_flatten, List.flatten_cons]
    rw [List.get?_append (by cases b1 with | nil => exact absurd rfl hb1 | cons a t => simp)]

/-- Witness for C5 on a 2-page TOC and a concrete merged content. -/
theorem assembleFinal_toc_prefix_witness :
    assembleFinal true [90, 91] [33, 34] = ([90, 91] ++ [33, 34] : List Nat) ∧
    (assembleFinal true [90, 91] ([33, 34] : List Nat)).get? 2 = some 33 := by
  have h := assembleFinal_toc_prefix ([90, 91] : List Nat) [33, 34] 2 (by decide)
  refine ⟨h.1, ?_⟩
  have h2 := h.2.2.1
  simpa using h2

/-- C6: a single-input render job uses that input's buffer as the merged
content unchanged: the selection step returns the very buffer without
invoking the merge function at all (so no re-encoding can occur), hence
page count and page content equal the standalone render; with the TOC
flag unset the final assembly is that same buffer. -/
theorem selectMergedBuffer_single {β α : Type} (merge : List β → β) (b : β) (buf : List α)
    (t : List α) :
    selectMergedBuffer merge [b] = b ∧
    selectMergedBuffer mergePdfBuffers [buf] = buf ∧
    (selectMergedBuffer mergePdfBuffers [buf]).length = buf.length ∧
    (∀ k, (selectMergedBuffer mergePdfBuffers [buf]).get? k = buf.get? k) ∧
    assembleFinal false t (selectMergedBuffer mergePdfBuffers [buf]) = buf := by
  refine ⟨rfl, rfl, rfl, fun k => rfl, ?_⟩
  simp [assembleFinal, selectMergedBuffer]

/-! ## TOC item construction (src/bin/electron2pdf.js lines 1128-1135)

Each loop iteration maps the inputs to OutlineItems while advancing a
page cursor that starts at `tocPageCount + 1` and grows by each input's
page count.  The page-count list is built in lockstep with the render
loop (lines 1112-1119), so it always has the same length as the input
list; the recursion below consumes both lists together. -/

def buildTocItemsGo (resolve : String → String) :
    List String → List Nat → Nat → List OutlineItem
  | [], _, _ => []
  | inp :: inps, c :: cs, cursor =>
    { title := inp, link := normalizeInputToUrl resolve inp, page := cursor } ::
      buildTocItemsGo resolve inps cs (cursor + c)
  | _ :: _, [], _ => []

/-- The `items` array built by one iteration of the TOC loop, with the
page cursor initialized to `tocPageCount + 1`. -/
def tocItems (resolve : String → String) (inputs : List String) (pageCounts : List Nat)
    (tocPageCount : Nat) : List OutlineItem :=
  buildTocItemsGo resolve inputs pageCounts (tocPageCount + 1)

theorem buildTocItemsGo_get (resolve : String → String) :
    ∀ (inputs : List String) (counts : List Nat) (cursor : Nat) (i : Nat)
      (hlen : counts.length = inputs.length) (hi : i < inputs.length),
      (buildTocItemsGo resolve inputs counts cursor).get? i =
        some { title := inputs.get ⟨i, hi⟩,
               link := normalizeInputToUrl resolve (inputs.get ⟨i, hi⟩),
               page := cursor + ((counts.take i).sum) } := by
  intro inputs
  induction inputs with
  | nil => intro counts cursor i hlen hi; simp at hi
  | cons inp inps ih =>
    intro counts cursor i hlen hi
    cases counts with
    | nil => simp at hlen
    | cons c cs =>
      cases i with
      | zero => simp [buildTocItemsGo]
      | succ j =>
        have hlen2 : cs.length = inps.length := by simpa using hlen
        have hj : j < inps.length := by simpa using hi
        have := ih cs (cursor + c) j hlen2 hj
        simp only [buildTocItemsGo, List.get?_cons_succ, List.take_succ_cons, List.sum_cons]
        rw [this]
        congr 2
        omega

/-- C2: in every iteration of the TOC pagination loop (that is, for every
current `tocPageCount` hypothesis), the OutlineItem built for input `i`
has page `tocPageCount + 1 +` the sum of the page counts of the preceding
inputs, title the raw input descriptor, and link the normalized URL of
that input. -/
theorem tocItems_spec (resolve : String → String) (inputs : List String)
    (pageCounts : List Nat) (tocPageCount : Nat) (i : Nat)
    (hlen : pageCounts.length = inputs.length) (hi : i < inputs.length) :
    (tocItems resolve inputs pageCounts tocPageCount).get? i =
      some { title := inputs.get ⟨i, hi⟩,
             link := normalizeInputToUrl resolve (inputs.get ⟨i, hi⟩),
             page := tocPageCount + 1 + ((pageCounts.take i).sum) } :=
  buildTocItemsGo_get resolve inputs pageCounts (tocPageCount + 1) i hlen hi

/-- Witness for C2: two inputs with page counts 2 and 3 under hypothesis
`tocPageCount = 1` give the second input starting page `1 + 1 + 2 = 4`. -/
theorem tocItems_spec_witness :
    (tocItems (fun s => String.append "/cwd/" s) ["https://a", "b.html"] [2, 3] 1).get? 1 =
      some { title := "b.html",
             link := normalizeInputToUrl (fun s => String.append "/cwd/" s) "b.html",
             page := 4 } := by
  have h := tocItems_spec (fun s => String.append "/cwd/" s) ["https://a", "b.html"] [2, 3] 1 1
    (by decide) (by decide)
  simpa using h

/-! ## The TOC fixed-point loop (src/bin/electron2pdf.js lines 1124-1145,
and identically lines 1065-1086 on the batch path)

The loop state is `tocPageCount` (initialized to 1).  Each iteration
renders the TOC built from the current hypothesis and reads the actual
page count of the resulting buffer; rendering is deterministic in the
hypothesis once inputs, page counts and options are fixed, so it is
modelled as an oracle `render : Nat → β` from hypothesis to buffer
together with `pc : β → Nat` (`PDFDocument.load` + `getPageCount`).
`tocGo r c` performs one render from hypothesis `c` with `r` further
iterations allowed (the source allows 3 in total, so the loop starts at
`tocGo 2 1`), and returns the kept buffer, the final `tocPageCount`, and
the number of iterations executed. -/

def tocGo {β : Type} (render : Nat → β) (pc : β → Nat) : Nat → Nat → β × Nat × Nat
  | 0, c =>
    let buf := render c
    let n := pc buf
    if n = c then (buf, c, 1) else (buf, n, 1)
  | r + 1, c =>
    let buf := render c
    let n := pc buf
    if n = c then (buf, c, 1)
    else
      let res := tocGo render pc r n
      (res.1, res.2.1, res.2.2 + 1)

/-- The whole fixed-point loop: up to 3 iterations from hypothesis 1. -/
def tocPaginate {β : Type} (render : Nat → β) (pc : β → Nat) : β × Nat × Nat :=
  tocGo render pc 2 1

/-- The sequence of `tocPageCount` hypotheses the loop would use:
`hypSeq k` is the hypothesis entering iteration `k + 1`. -/
def hypSeq {β : Type} (render : Nat → β) (pc : β → Nat) : Nat → Nat
  | 0 => 1
  | k + 1 => pc (render (hypSeq render pc k))

/-- C1: with `tocPageCount` initialized to 1 and at most 3 iterations, if
the rendered TOC's page count first stabilizes at iteration `m ≤ 3` (the
page count of the newly rendered buffer equals the current hypothesis),
the loop stops after iteration `m` keeping that buffer, and the final
`tocPageCount` equals the actual page count of the final buffer; if no
fixed point is reached within 3 iterations the loop still returns,
keeping the last computed buffer. -/
theorem tocPaginate_spec {β : Type} (render : Nat → β) (pc : β → Nat) :
    (∀ m : Nat, 1 ≤ m → m ≤ 3 →
      (∀ k, 1 ≤ k → k < m →
        pc (render (hypSeq render pc (k - 1))) ≠ hypSeq render pc (k - 1)) →
      pc (render (hypSeq render pc (m - 1))) = hypSeq render pc (m - 1) →
      tocPaginate render pc =
        (render (hypSeq render pc (m - 1)), hypSeq render pc (m - 1), m)) ∧
    ((∀ k, 1 ≤ k → k ≤ 3 →
        pc (render (hypSeq render pc (k - 1))) ≠ hypSeq render pc (k - 1)) →
      tocPaginate render pc =
        (render (hypSeq render pc 2), pc (render (hypSeq render pc 2)), 3)) := by
  constructor
  · intro m h1 h3 hpre hfix
    interval_cases m
    · have h0 : pc (render 1) = 1 := by simpa [hypSeq] using hfix
      simp [tocPaginate, tocGo, h0, hypSeq]
    · have hne1 : ¬ pc (render 1) = 1 := by
        simpa [hypSeq] using hpre 1 le_rfl (by norm_num)
      have hfix2 : pc (render (pc (render 1))) = pc (render 1) := by
        simpa [hypSeq] using hfix
      simp [tocPaginate, tocGo, hne1, hfix2, hypSeq]
    · have hne1 : ¬ pc (render 1) = 1 := by
        simpa [hypSeq] using hpre 1 le_rfl (by norm_num)
      have hne2 : ¬ pc (render (pc (render 1))) = pc (render 1) := by
        simpa [hypSeq] using hpre 2 (by norm_num) (by norm_num)
      have hfix3 : pc (render (pc (render (pc (render 1))))) = pc (render (pc (render 1))) := by
        simpa [hypSeq] using hfix
      simp [tocPaginate, tocGo, hne1, hne2, hfix3, hypSeq]
  · intro hall
    have hne1 : ¬ pc (render 1) = 1 := by
      simpa [hypSeq] using hall 1 le_rfl (by norm_num)
    have hne2 : ¬ pc (render (pc (render 1))) = pc (render 1) := by
      simpa [hypSeq] using hall 2 (by norm_num) (by norm_num)
    have hne3 : ¬ pc (render (pc (render (pc (render 1))))) = pc (render (pc (render 1))) := by
      simpa [hypSeq] using hall 3 (by norm_num) (by norm_num)
    simp [tocPaginate, tocGo, hne1, hne2, hne3, hypSeq]

/-- Witness for C1: a renderer whose TOC always has 2 pages stabilizes at
iteration 2 with the loop returning that buffer and count. -/
theorem tocPaginate_spec_witness :
    tocPaginate (fun c => c) (fun _ => 2) = (2, 2, 2) := by
  have h := (tocPaginate_spec (fun c => c) (fun _ => 2)).1 2 (by norm_num) (by norm_num)
    (fun k hk1 hk2 => by
      have hk : k = 1 := by omega
      subst hk
      simp [hypSeq])
    (by simp [hypSeq])
  simpa [hypSeq] using h

/-! ## Argument parsing (src/bin/electron2pdf.js lines 265-730)

External JavaScript primitives used by the parser are collected in
`JsPrims`: `resolve` models `path.resolve(process.cwd(), ·)` and `number`
models `Number(·)` restricted to finite results (`none` stands for `NaN`
or an infinity, which the source rejects with `Number.isFinite`). -/

structure JsPrims where
  resolve : String → String
  number : String → Option ℚ

/-- `parseViewportSize` from lines 173-177: the regex
`/^\s*(\d+)\s*[xX]\s*(\d+)\s*$/` as a direct scanner. -/
def parseViewportSize (value : String) : Option (Nat × Nat) :=
  let cs := value.data.dropWhile isJsSpace
  let ds1 := cs.takeWhile Char.isDigit
  if ds1 = [] then none
  else
    match (cs.dropWhile Char.isDigit).dropWhile isJsSpace with
    | x :: r3 =>
      if x = 'x' ∨ x = 'X' then
        let r4 := r3.dropWhile isJsSpace
        let ds2 := r4.takeWhile Char.isDigit
        if ds2 = [] then none
        else if (r4.dropWhile Char.isDigit).dropWhile isJsSpace = [] then
          some (digitsToNat ds1, digitsToNat ds2)
        else none
      else none
    | [] => none

/-- The options record of lines 271-304.  Every field of the JavaScript
object literal is present here; fields initialized to `undefined` become
`none`.  JavaScript numbers are `ℚ`. -/
structure Options where
  customHeaders : List (String × String)
  cookies : List (String × String)
  allow : List String
  bypassProxyFor : List String
  post : List (String × String)
  postFile : List (String × String)
  runScript : List String
  replace : List (String × String)
  proxy : Option String
  quiet : Bool
  logLevel : String
  title : Option String
  stopSlowScripts : Bool
  javascriptEnabled : Bool
  javascriptDelayMs : ℚ
  windowStatus : Option String
  viewportSize : Option (Nat × Nat)
  zoomFactor : ℚ
  printMediaType : Bool
  toc : Bool
  xslStyleSheet : Option String
  readArgsFromStdin : Bool
  background : Bool
  orientation : String
  pageSize : Option String
  pageWidthIn : Option ℚ
  pageHeightIn : Option ℚ
  marginTopIn : Option ℚ
  marginBottomIn : Option ℚ
  marginLeftIn : Option ℚ
  marginRightIn : Option ℚ
  userStyleSheet : Option String
deriving DecidableEq, Repr

/-- The defaults of the object literal (lines 271-304). -/
def initOptions : Options where
  customHeaders := []
  cookies := []
  allow := []
  bypassProxyFor := []
  post := []
  postFile := []
  runScript := []
  replace := []
  proxy := none
  quiet := false
  logLevel := "info"
  title := none
  stopSlowScripts := false
  javascriptEnabled := true
  javascriptDelayMs := 200
  windowStatus := none
  viewportSize := none
  zoomFactor := 1
  printMediaType := false
  toc := false
  xslStyleSheet := none
  readArgsFromStdin := false
  background := true
  orientation := "Portrait"
  pageSize := none
  pageWidthIn := none
  pageHeightIn := none
  marginTopIn := none
  marginBottomIn := none
  marginLeftIn := none
  marginRightIn := none
  userStyleSheet := none

/-- How a parse can terminate the process: `exitError` models a thrown
`ExitError` (from `helpAndExit`), `processExit` a direct `process.exit`
(the `--dump-default-toc-xsl` branch).  Both carry the exit code. -/
inductive ParseAbort where
  | exitError (code : Nat)
  | processExit (code : Nat)
deriving DecidableEq, Repr

/-- The result object of `parseArgsArray`: inputs, output file (absent
when no positionals were given under `allowNoPositionals`), options. -/
structure ParsedArgs where
  inputs : List String
  outputFile : Option String
  options : Options
deriving DecidableEq, Repr

/-- The accepted-but-ignored legacy flags (the disjunction of
lines 562-650). -/
def ignoredFlags : List String :=
  ["--collate", "--no-collate", "--cookie-jar", "--copies", "-d", "--dpi", "-g",
   "--grayscale", "-l", "--lowquality", "--image-dpi", "--image-quality",
   "--no-pdf-compression", "--title", "--use-xserver", "--extended-help", "--htmldoc",
   "--license", "--manpage", "--read-args-from-stdin", "--readme", "-V", "--version",
   "--dump-default-toc-xsl", "--dump-outline", "--outline", "--no-outline",
   "--outline-depth", "--cache-dir", "--checkbox-checked-svg", "--checkbox-svg",
   "--custom-header-propagation", "--no-custom-header-propagation", "--debug-javascript",
   "--no-debug-javascript", "--default-header", "--encoding", "--disable-external-links",
   "--enable-external-links", "--images", "--no-images", "--disable-internal-links",
   "--enable-internal-links", "--keep-relative-links", "--load-error-handling",
   "--load-media-error-handling", "--disable-local-file-access",
   "--enable-local-file-access", "--minimum-font-size", "--exclude-from-outline",
   "--include-in-outline", "--page-offset", "--password", "--post", "--post-file",
   "--print-media-type", "--no-print-media-type", "-p", "--resolve-relative-links",
   "--ssl-crt-path", "--ssl-key-password", "--ssl-key-path", "--disable-toc-back-links",
   "--enable-toc-back-links", "--username", "--footer-center", "--footer-font-name",
   "--footer-font-size", "--footer-html", "--footer-left", "--footer-line",
   "--no-footer-line", "--footer-right", "--footer-spacing", "--header-center",
   "--header-font-name", "--header-font-size", "--header-html", "--header-left",
   "--header-line", "--no-header-line", "--header-right", "--header-spacing",
   "--disable-dotted-lines", "--toc-header-text", "--toc-level-indentation",
   "--disable-toc-links", "--toc-text-size-shrink", "--xsl-style-sheet"]

/-- The ignored flags that also consume one following token (the inner
disjunction of lines 653-692). -/
def ignoredValueFlags : List String :=
  ["--cookie-jar", "--copies", "--dpi", "-d", "--image-dpi", "--image-quality", "--title",
   "--dump-outline", "--outline-depth", "--cache-dir", "--checkbox-checked-svg",
   "--checkbox-svg", "--encoding", "--load-error-handling", "--load-media-error-handling",
   "--minimum-font-size", "--page-offset", "--password", "--ssl-crt-path",
   "--ssl-key-password", "--ssl-key-path", "--username", "--footer-center",
   "--footer-font-name", "--footer-font-size", "--footer-html", "--footer-left",
   "--footer-right", "--footer-spacing", "--header-center", "--header-font-name",
   "--header-font-size", "--header-html", "--header-left", "--header-right",
   "--header-spacing", "--toc-header-text", "--toc-level-indentation",
   "--toc-text-size-shrink", "--xsl-style-sheet"]

/-- The argument loop of lines 318-700, one flag test after another in
source order.  `pos` accumulates positionals.  A missing flag value
(`popValue`/`popTwoValues` past the end) exits with code 2, as does an
unrecognized dash argument. -/
def parseLoop (prims : JsPrims) :
    List String → Options → List String → Except ParseAbort (Options × List String)
  | [], opts, pos => Except.ok (opts, pos)
  | a :: rest, opts, pos =>
    if a.data.head? ≠ some '-' then parseLoop prims rest opts (pos ++ [a])
    else if a = "-h" ∨ a = "--help" then Except.error (ParseAbort.exitError 0)
    else if a = "--read-args-from-stdin" then
      parseLoop prims rest { opts with readArgsFromStdin := true } pos
    else if a = "--dump-default-toc-xsl" then Except.error (ParseAbort.processExit 0)
    else if a = "-q" ∨ a = "--quiet" then
      parseLoop prims rest { opts with quiet := true, logLevel := "none" } pos
    else if a = "--log-level" then
      match rest with
      | [] => Except.error (ParseAbort.exitError 2)
      | v :: rest2 => parseLoop prims rest2 { opts with logLevel := v } pos
    else if a = "--title" then
      match rest with
      | [] => Except.error (ParseAbort.exitError 2)
      | v :: rest2 => parseLoop prims rest2 { opts with title := some v } pos
    else if a = "--stop-slow-scripts" then
      parseLoop prims rest { opts with stopSlowScripts := true } pos
    else if a = "--no-stop-slow-scripts" then
      parseLoop prims rest { opts with stopSlowScripts := false } pos
    else if a = "--background" then
      parseLoop prims rest { opts with background := true } pos
    else if a = "--no-background" then
      parseLoop prims rest { opts with background := false } pos
    else if a = "--print-media-type" then
      parseLoop prims rest { opts with printMediaType := true } pos
    else if a = "--no-print-media-type" then
      parseLoop prims rest { opts with printMediaType := false } pos
    else if a = "-O" ∨ a = "--orientation" then
      match rest with
      | [] => Except.error (ParseAbort.exitError 2)
      | v :: rest2 =>
        if v ≠ "Portrait" ∧ v ≠ "Landscape" then Except.error (ParseAbort.exitError 2)
        else parseLoop prims rest2 { opts with orientation := v } pos
    else if a = "-s" ∨ a = "--page-size" then
      match rest with
      | [] => Except.error (ParseAbort.exitError 2)
      | v :: rest2 => parseLoop prims rest2 { opts with pageSize := some v } pos
    else if a = "--page-width" then
      match rest with
      | [] => Except.error (ParseAbort.exitError 2)
      | v :: rest2 =>
        match unitRealToInches v with
        | none => Except.error (ParseAbort.exitError 2)
        | some q => parseLoop prims rest2 { opts with pageWidthIn := some q } pos
    else if a = "--page-height" then
      match rest with
      | [] => Except.error (ParseAbort.exitError 2)
      | v :: rest2 =>
        match unitRealToInches v with
        | none => Except.error (ParseAbort.exitError 2)
        | some q => parseLoop prims rest2 { opts with pageHeightIn := some q } pos
    else if a = "-T" ∨ a = "--margin-top" then
      match rest with
      | [] => Except.error (ParseAbort.exitError 2)
      | v :: rest2 =>
        match unitRealToInches v with
        | none => Except.error (ParseAbort.exitError 2)
        | some q => parseLoop prims rest2 { opts with marginTopIn := some q } pos
    else if a = "-B" ∨ a = "--margin-bottom" then
      match rest with
      | [] => Except.error (ParseAbort.exitError 2)
      | v :: rest2 =>
        match unitRealToInches v with
        | none => Except.error (ParseAbort.exitError 2)
        | some q => parseLoop prims rest2 { opts with marginBottomIn := some q } pos
    else if a = "-L" ∨ a = "--margin-left" then
      match rest with
      | [] => Except.error (ParseAbort.exitError 2)
      | v :: rest2 =>
        match unitRealToInches v with
        | none => Except.error (ParseAbort.exitError 2)
        | some q => parseLoop prims rest2 { opts with marginLeftIn := some q } pos
    else if a = "-R" ∨ a = "--margin-right" then
      match rest with
      | [] => Except.error (ParseAbort.exitError 2)
      | v :: rest2 =>
        match unitRealToInches v with
        | none => Except.error (ParseAbort.exitError 2)
        | some q => parseLoop prims rest2 { opts with marginRightIn := some q } pos
    else if a = "--viewport-size" then
      match rest with
      | [] => Except.error (ParseAbort.exitError 2)
      | v :: rest2 =>
        match parseViewportSize v with
        | none => Except.error (ParseAbort.exitError 2)
        | some wh => parseLoop prims rest2 { opts with viewportSize := some wh } pos
    else if a = "--zoom" then
      match rest with
      | [] => Except.error (ParseAbort.exitError 2)
      | v :: rest2 =>
        match prims.number v with
        | none => Except.error (ParseAbort.exitError 2)
        | some z =>
          if z ≤ 0 then Except.error (ParseAbort.exitError 2)
          else parseLoop prims rest2 { opts with zoomFactor := z } pos
    else if a = "-n" ∨ a = "--disable-javascript" then
      parseLoop prims rest { opts with javascriptEnabled := false } pos
    else if a = "--enable-javascript" then
      parseLoop prims rest { opts with javascriptEnabled := true } pos
    else if a = "--javascript-delay" then
      match rest with
      | [] => Except.error (ParseAbort.exitError 2)
      | v :: rest2 =>
        match prims.number v with
        | none => Except.error (ParseAbort.exitError 2)
        | some ms =>
          if ms < 0 then Except.error (ParseAbort.exitError 2)
          else parseLoop prims rest2 { opts with javascriptDelayMs := ms } pos
    else if a = "--window-status" then
      match rest with
      | [] => Except.error (ParseAbort.exitError 2)
      | v :: rest2 => parseLoop prims rest2 { opts with windowStatus := some v } pos
    else if a = "--user-style-sheet" then
      match rest with
      | [] => Except.error (ParseAbort.exitError 2)
      | v :: rest2 => parseLoop prims rest2 { opts with userStyleSheet := some v } pos
    else if a = "--xsl-style-sheet" then
      match rest with
      | [] => Except.error (ParseAbort.exitError 2)
      | v :: rest2 => parseLoop prims rest2 { opts with xslStyleSheet := some v } pos
    else if a = "--custom-header" then
      match rest with
      | n :: v :: rest3 =>
        parseLoop prims rest3 { opts with customHeaders := opts.customHeaders ++ [(n, v)] } pos
      | _ => Except.error (ParseAbort.exitError 2)
    else if a = "--cookie" then
      match rest with
      | n :: v :: rest3 =>
        parseLoop prims rest3 { opts with cookies := opts.cookies ++ [(n, v)] } pos
      | _ => Except.error (ParseAbort.exitError 2)
    else if a = "-p" ∨ a = "--proxy" then
      match rest with
      | [] => Except.error (ParseAbort.exitError 2)
      | v :: rest2 => parseLoop prims rest2 { opts with proxy := some v } pos
    else if a = "--allow" then
      match rest with
      | [] => Except.error (ParseAbort.exitError 2)
      | v :: rest2 => parseLoop prims rest2 { opts with allow := opts.allow ++ [v] } pos
    else if a = "--bypass-proxy-for" then
      match rest with
      | [] => Except.error (ParseAbort.exitError 2)
      | v :: rest2 =>
        parseLoop prims rest2 { opts with bypassProxyFor := opts.bypassProxyFor ++ [v] } pos
    else if a = "--post" then
      match rest with
      | n :: v :: rest3 =>
        parseLoop prims rest3 { opts with post := opts.post ++ [(n, v)] } pos
      | _ => Except.error (ParseAbort.exitError 2)
    else if a = "--post-file" then
      match rest with
      | n :: v :: rest3 =>
        parseLoop prims rest3 { opts with postFile := opts.postFile ++ [(n, v)] } pos
      | _ => Except.error (ParseAbort.exitError 2)
    else if a = "--run-script" then
      match rest with
      | [] => Except.error (ParseAbort.exitError 2)
      | v :: rest2 => parseLoop prims rest2 { opts with runScript := opts.runScript ++ [v] } pos
    else if a = "--replace" then
      match rest with
      | n :: v :: rest3 =>
        parseLoop prims rest3 { opts with replace := opts.replace ++ [(n, v)] } pos
      | _ => Except.error (ParseAbort.exitError 2)
    else if a ∈ ignoredFlags then
      if a ∈ ignoredValueFlags then
        match rest with
        | [] => Except.ok (opts, pos)
        | _ :: rest2 => parseLoop prims rest2 opts pos
      else parseLoop prims rest opts pos
    else Except.error (ParseAbort.exitError 2)

/-- The positional post-processing of lines 713-719: a literal `toc`
among the inputs sets the TOC flag instead of becoming an input. -/
def extractToc : List String → Options → Options × List String
  | [], opts => (opts, [])
  | p :: ps, opts =>
    if p = "toc" then extractToc ps { opts with toc := true }
    else
      let r := extractToc ps opts
      (r.1, p :: r.2)

/-- `parseArgsArray` from lines 265-726: the upfront empty/help check,
the flag loop, then the positional checks (at least two positionals
unless `allowNoPositionals`; last positional is the output file; `toc`
extraction; at least one input unless `allowNoPositionals`). -/
def parseArgsArray (prims : JsPrims) (args : List String) (allowNoPositionals : Bool) :
    Except ParseAbort ParsedArgs :=
  if args = [] ∨ args.contains "-h" ∨ args.contains "--help" then
    Except.error (ParseAbort.exitError (if args = [] then 2 else 0))
  else
    match parseLoop prims args initOptions [] with
    | Except.error e => Except.error e
    | Except.ok (opts, positionals) =>
      if positionals.length < 2 ∧ ¬ allowNoPositionals then
        Except.error (ParseAbort.exitError 2)
      else if positionals = [] then Except.ok ⟨[], none, opts⟩
      else
        let outputFile := positionals.getLast?
        let r := extractToc positionals.dropLast opts
        if r.2 = [] ∧ ¬ allowNoPositionals then Except.error (ParseAbort.exitError 2)
        else Except.ok ⟨r.2, outputFile, r.1⟩

/-- `mergeOptions` from lines 250-263.  The source computes
`{ ...base, ...override }` and then reassigns the eight list-valued
fields to the concatenation of both sides.  Every field of `Options` is
an own property of any options object produced by `parseArgsArray` (the
literal of lines 271-304 initializes all of them, `undefined` included),
so the object spread takes the override's value for every field; only
the eight list fields see the base at all. -/
def mergeOptions (base override : Options) : Options :=
  { override with
    customHeaders := base.customHeaders ++ override.customHeaders
    cookies := base.cookies ++ override.cookies
    allow := base.allow ++ override.allow
    bypassProxyFor := base.bypassProxyFor ++ override.bypassProxyFor
    post := base.post ++ override.post
    postFile := base.postFile ++ override.postFile
    runScript := base.runScript ++ override.runScript
    replace := base.replace ++ override.replace }

/-! ## Batch mode (src/bin/electron2pdf.js lines 201-248 and 1027-1106) -/

/-- `tokenizeArgLine` from lines 201-248: shell-like tokenization with
single/double quotes suppressing whitespace splitting and a backslash
escaping the next character (inside double quotes and outside quotes);
a trailing backslash is kept literally, an unterminated quote simply
ends with the line. -/
def tokenizeGo : List Char → List Char → Option Char → List String → List String
  | [], cur, _, out => if cur = [] then out else out ++ [String.mk cur]
  | ch :: rest, cur, some q, out =>
    if ch = q then tokenizeGo rest cur none out
    else if q = '"' ∧ ch = '\\' then
      match rest with
      | c2 :: rest2 => tokenizeGo rest2 (cur ++ [c2]) (some q) out
      | [] => out ++ [String.mk (cur ++ [ch])]
    else tokenizeGo rest (cur ++ [ch]) (some q) out
  | ch :: rest, cur, none, out =>
    if ch = '"' ∨ ch = squote then tokenizeGo rest cur (some ch) out
    else if ch = '\\' then
      match rest with
      | c2 :: rest2 => tokenizeGo rest2 (cur ++ [c2]) none out
      | [] => out ++ [String.mk (cur ++ [ch])]
    else if isJsSpace ch then
      if cur = [] then tokenizeGo rest [] none out
      else tokenizeGo rest [] none (out ++ [String.mk cur])
    else tokenizeGo rest (cur ++ [ch]) none out

def tokenizeArgLine (line : String) : List String :=
  tokenizeGo line.data [] none []

/-- One iteration of the `for await (const line of rl)` loop of
lines 1030-1102, as observed at the process boundary: `none` when the
trimmed line is blank (skipped); `some (Except.error c)` when processing
this line terminates the process with exit code `c` (a parse abort is
exited immediately in the loop's catch, a missing input/output throws
`ExitError 2` to the top-level catch, and any render/assembly/write
failure reaches the top-level catch which exits 1); `some (Except.ok out)`
when the line's job completes and writes its output.  The render, merge,
TOC and write steps of the job are the external effectful part and are
abstracted as the oracle `run`, which receives exactly what the source
passes: the merged options, the line's inputs and its output file. -/
def processLine {σ : Type} (prims : JsPrims)
    (run : Options → List String → String → Except String σ)
    (base : Options) (line : String) : Option (Except Nat σ) :=
  let trimmed := jsTrim line
  if trimmed.data = [] then none
  else
    match parseArgsArray prims (tokenizeArgLine trimmed) false with
    | Except.error (ParseAbort.exitError c) => some (Except.error c)
    | Except.error (ParseAbort.processExit c) => some (Except.error c)
    | Except.ok parsed =>
      let mergedOptions := mergeOptions base parsed.options
      match parsed.outputFile with
      | none => some (Except.error 2)
      | some outFile =>
        if parsed.inputs = [] ∨ outFile = "" then some (Except.error 2)
        else
          match run mergedOptions parsed.inputs outFile with
          | Except.error _ => some (Except.error 1)
          | Except.ok out => some (Except.ok out)

/-- The stream loop of lines 1030-1106: lines processed strictly in
order; a line that terminates the process stops everything with its exit
code; stream end exits 0.  Returns the outputs written (in order) and
the process exit code. -/
def batchRun {σ : Type} (prims : JsPrims)
    (run : Options → List String → String → Except String σ)
    (base : Options) : List String → List σ → List σ × Nat
  | [], acc => (acc.reverse, 0)
  | l :: ls, acc =>
    match processLine prims run base l with
    | none => batchRun prims run base ls acc
    | some (Except.error c) => (acc.reverse, c)
    | some (Except.ok out) => batchRun prims run base ls (out :: acc)

instance {e a : Type} [DecidableEq e] [DecidableEq a] : DecidableEq (Except e a) := fun x y =>
  match x, y with
  | Except.error v, Except.error w =>
    if h : v = w then Decidable.isTrue (congrArg Except.error h)
    else Decidable.isFalse (fun hc => h (Except.error.inj hc))
  | Except.ok v, Except.ok w =>
    if h : v = w then Decidable.isTrue (congrArg Except.ok h)
    else Decidable.isFalse (fun hc => h (Except.ok.inj hc))
  | Except.error _, Except.ok _ => Decidable.isFalse (fun hc => Except.noConfusion hc)
  | Except.ok _, Except.error _ => Decidable.isFalse (fun hc => Except.noConfusion hc)

def samplePrims : JsPrims :=
  ⟨fun s => String.append "/cwd/" s, fun s => if s = "2" then some 2 else none⟩

def sampleRun : Options → List String → String → Except String Nat :=
  fun _ _ _ => Except.ok 7

def sampleBase : Options := { initOptions with readArgsFromStdin := true }

/-- `sampleBase` is exactly what the top-level invocation
`--read-args-from-stdin` parses to (the batch base configuration). -/
theorem sampleBase_eq_parse :
    parseArgsArray samplePrims ["--read-args-from-stdin"] true =
      Except.ok ⟨[], none, sampleBase⟩ := by decide

def optionsOf (r : Except ParseAbort ParsedArgs) : Options :=
  match r with
  | Except.ok p => p.options
  | Except.error _ => initOptions

/-- The output a line contributes when its job succeeds. -/
def lineOut {σ : Type} (prims : JsPrims)
    (run : Options → List String → String → Except String σ)
    (base : Options) (l : String) : Option σ :=
  match processLine prims run base l with
  | some (Except.ok out) => some out
  | _ => none

/-- A line that does not terminate the process: blank (skipped) or a job
that completes and produces output. -/
def lineBenign {σ : Type} (prims : JsPrims)
    (run : Options → List String → String → Except String σ)
    (base : Options) (l : String) : Prop :=
  processLine prims run base l = none ∨
  ∃ out, processLine prims run base l = some (Except.ok out)

theorem batchRun_benign_acc {σ : Type} (prims : JsPrims)
    (run : Options → List String → String → Except String σ) (base : Options) :
    ∀ (lines : List String) (acc : List σ),
      (∀ l ∈ lines, lineBenign prims run base l) →
      batchRun prims run base lines acc =
        (acc.reverse ++ lines.filterMap (lineOut prims run base), 0) := by
  intro lines
  induction lines with
  | nil => intro acc h; simp [batchRun]
  | cons l ls ih =>
    intro acc h
    have hl := h l (List.mem_cons_self l ls)
    have hls : ∀ x ∈ ls, lineBenign prims run base x :=
      fun x hx => h x (List.mem_cons_of_mem l hx)
    rcases hl with hnone | ⟨out, hout⟩
    · rw [batchRun, hnone, ih acc hls, List.filterMap_cons]
      rw [show lineOut prims run base l = none from by rw [lineOut, hnone]]
    · have hstep : batchRun prims run base (l :: ls) acc =
          batchRun prims run base ls (out :: acc) := by
        rw [batchRun, hout]
      rw [hstep, ih (out :: acc) hls, List.filterMap_cons]
      rw [show lineOut prims run base l = some out from by rw [lineOut, hout]]
      simp

theorem batchRun_abort_acc {σ : Type} (prims : JsPrims)
    (run : Options → List String → String → Except String σ) (base : Options)
    (bad : String) (post : List String) (c : Nat)
    (hbad : processLine prims run base bad = some (Except.error c)) :
    ∀ (pre : List String) (acc : List σ),
      (∀ l ∈ pre, lineBenign prims run base l) →
      batchRun prims run base (pre ++ bad :: post) acc =
        (acc.reverse ++ pre.filterMap (lineOut prims run base), c) := by
  intro pre
  induction pre with
  | nil =>
    intro acc h
    rw [List.nil_append, batchRun, hbad]
    simp
  | cons l ls ih =>
    intro acc h
    have hl := h l (List.mem_cons_self l ls)
    have hls : ∀ x ∈ ls, lineBenign prims run base x :=
      fun x hx => h x (List.mem_cons_of_mem l hx)
    rcases hl with hnone | ⟨out, hout⟩
    · rw [List.cons_append, batchRun, hnone, ih acc hls, List.filterMap_cons]
      rw [show lineOut prims run base l = none from by rw [lineOut, hnone]]
    · have hstep : batchRun prims run base (l :: (ls ++ bad :: post)) acc =
          batchRun prims run base (ls ++ bad :: post) (out :: acc) := by
        rw [batchRun, hout]
      rw [List.cons_append, hstep, ih (out :: acc) hls, List.filterMap_cons]
      rw [show lineOut prims run base l = some out from by rw [lineOut, hout]]
      simp

/-- C3 counterexample: a control stream whose first line is malformed
(`--bogus-flag` is not a recognized flag, so its parse throws the usage
`ExitError 2`, which the batch loop's catch turns into an immediate
`process.exit(2)`) and whose second line is valid produces NO output at
all and exits with code 2 — the valid line is never processed, although
the same valid line alone produces its output and exit code 0.  This
refutes the claimed batch isolation at a concrete input. -/
theorem batch_malformed_aborts_stream :
    batchRun samplePrims sampleRun sampleBase
      ["--bogus-flag a.html out.pdf", "a.html out.pdf"] [] = ([], 2) ∧
    batchRun samplePrims sampleRun sampleBase ["a.html out.pdf"] [] = ([7], 0) := by
  decide

/-- C3 amended: lines are processed strictly sequentially (each line's
job runs to completion before the next line is read), but failures are
NOT isolated: a stream of benign lines produces all their outputs in
order and exits 0, while the first line that terminates the process — a
parse usage error (its exit code, usually 2) or a failed job (exit
code 1) — stops the stream immediately with that code; lines after it,
valid or not, are never processed and produce no output. -/
theorem batchRun_spec {σ : Type} (prims : JsPrims)
    (run : Options → List String → String → Except String σ) (base : Options) :
    (∀ lines : List String,
      (∀ l ∈ lines, lineBenign prims run base l) →
      batchRun prims run base lines [] =
        (lines.filterMap (lineOut prims run base), 0)) ∧
    (∀ (pre : List String) (bad : String) (post : List String) (c : Nat),
      (∀ l ∈ pre, lineBenign prims run base l) →
      processLine prims run base bad = some (Except.error c) →
      batchRun prims run base (pre ++ bad :: post) [] =
        (pre.filterMap (lineOut prims run base), c)) := by
  constructor
  · intro lines h
    have := batchRun_benign_acc prims run base lines [] h
    simpa using this
  · intro pre bad post c h hbad
    have := batchRun_abort_acc prims run base bad post c hbad pre [] h
    simpa using this

/-- Witness for the amended C3: a benign line, then a malformed line,
then a further valid line: only the first line's output is written and
the process exits 2 without touching the third line. -/
theorem batchRun_spec_witness :
    batchRun samplePrims sampleRun sampleBase
      (["a.html out.pdf"] ++ "--bogus-flag x y" :: ["b.html out2.pdf"]) [] = ([7], 2) := by
  have h := (batchRun_spec samplePrims sampleRun sampleBase).2 ["a.html out.pdf"]
    "--bogus-flag x y" ["b.html out2.pdf"] 2
    (fun l hl => by
      have : l = "a.html out.pdf" := by simpa using hl
      subst this
      exact Or.inr ⟨7, by decide⟩)
    (by decide)
  exact h.trans (by decide)

/-- C9 counterexample: a base invocation with `--zoom 2` merged with a
batch line that does not mention `--zoom` yields zoom factor 1 — the
line's parsed options carry the parser default for every scalar field,
and the object spread `{ ...base, ...override }` lets those defaults
override the base, so base scalar settings are NOT preserved when the
line does not set them. -/
theorem mergeOptions_zoom_counterexample :
    (optionsOf (parseArgsArray samplePrims ["--zoom", "2", "a.html", "out.pdf"] false)).zoomFactor
      = 2 ∧
    (optionsOf (parseArgsArray samplePrims ["b.html", "out2.pdf"] false)).zoomFactor = 1 ∧
    (mergeOptions
        (optionsOf (parseArgsArray samplePrims ["--zoom", "2", "a.html", "out.pdf"] false))
        (optionsOf (parseArgsArray samplePrims ["b.html", "out2.pdf"] false))).zoomFactor = 1 := by
  decide

/-- C9 amended: for every base configuration and every per-line override
configuration, the merged configuration concatenates every list-valued
option (base entries first, then the line's, in order) and takes the
line's value for every scalar option — including the parser defaults
when the line does not set a flag, so base scalar settings are never
layered under the line's. -/
theorem mergeOptions_spec (base override : Options) :
    (mergeOptions base override).customHeaders =
      base.customHeaders ++ override.customHeaders ∧
    (mergeOptions base override).cookies = base.cookies ++ override.cookies ∧
    (mergeOptions base override).allow = base.allow ++ override.allow ∧
    (mergeOptions base override).bypassProxyFor =
      base.bypassProxyFor ++ override.bypassProxyFor ∧
    (mergeOptions base override).post = base.post ++ override.post ∧
    (mergeOptions base override).postFile = base.postFile ++ override.postFile ∧
    (mergeOptions base override).runScript = base.runScript ++ override.runScript ∧
    (mergeOptions base override).replace = base.replace ++ override.replace ∧
    (mergeOptions base override).proxy = override.proxy ∧
    (mergeOptions base override).quiet = override.quiet ∧
    (mergeOptions base override).logLevel = override.logLevel ∧
    (mergeOptions base override).title = override.title ∧
    (mergeOptions base override).stopSlowScripts = override.stopSlowScripts ∧
    (mergeOptions base override).javascriptEnabled = override.javascriptEnabled ∧
    (mergeOptions base override).javascriptDelayMs = override.javascriptDelayMs ∧
    (mergeOptions base override).windowStatus = override.windowStatus ∧
    (mergeOptions base override).viewportSize = override.viewportSize ∧
    (mergeOptions base override).zoomFactor = override.zoomFactor ∧
    (mergeOptions base override).printMediaType = override.printMediaType ∧
    (mergeOptions base override).toc = override.toc ∧
    (mergeOptions base override).xslStyleSheet = override.xslStyleSheet ∧
    (mergeOptions base override).readArgsFromStdin = override.readArgsFromStdin ∧
    (mergeOptions base override).background = override.background ∧
    (mergeOptions base override).orientation = override.orientation ∧
    (mergeOptions base override).pageSize = override.pageSize ∧
    (mergeOptions base override).pageWidthIn = override.pageWidthIn ∧
    (mergeOptions base override).pageHeightIn = override.pageHeightIn ∧
    (mergeOptions base override).marginTopIn = override.marginTopIn ∧
    (mergeOptions base override).marginBottomIn = override.marginBottomIn ∧
    (mergeOptions base override).marginLeftIn = override.marginLeftIn ∧
    (mergeOptions base override).marginRightIn = override.marginRightIn ∧
    (mergeOptions base override).userStyleSheet = override.userStyleSheet := by
  refine ⟨rfl, rfl, rfl, rfl, rfl, rfl, rfl, rfl, rfl, rfl, rfl, rfl, rfl, rfl, rfl, rfl,
    rfl, rfl, rfl, rfl, rfl, rfl, rfl, rfl, rfl, rfl, rfl, rfl, rfl, rfl, rfl, rfl⟩
